import Mathlib

/-!
Verification of the ghubscraper crawl/extraction pipeline and its API views.

Shallow embedding conventions:
* Python strings are modelled as List Char.
* Python exceptions are modelled with Except PyErr; PyErr.indexError models an
  IndexError raised by indexing an empty sequence, PyErr.valueError models the
  ValueError raised by int() on a non-numeric string, and PyErr.invalidUrlError
  models the InvalidUrlError named by the specification (never raised by the code).
* The Django record store is modelled as a list of stored rows; the delete and
  insert calls of the views become list filtering and appending.
-/

/-- Characters of a string literal. -/
def chs (s : String) : List Char := s.toList

/-- Python exception kinds relevant to the embedded code. -/
inductive PyErr where
  | indexError
  | valueError
  | invalidUrlError
deriving DecidableEq

/-- Model of the Python expression url.replace ("http:", "https:") from
clean_url in src/api/ghubscraper/views.py line 200: every non-overlapping
occurrence of the pattern, scanned left to right, is rewritten. -/
def replaceHttp : List Char → List Char
  | 'h' :: 't' :: 't' :: 'p' :: ':' :: rest => 'h' :: 't' :: 't' :: 'p' :: 's' :: ':' :: replaceHttp rest
  | c :: rest => c :: replaceHttp rest
  | [] => []

/-- Whether the five-character pattern of replaceHttp occurs anywhere in the list. -/
def hasHttp : List Char → Bool
  | [] => false
  | c :: rest => decide ((c :: rest).take 5 = ['h', 't', 't', 'p', ':']) || hasHttp rest

/-- Model of clean_url (src/api/ghubscraper/views.py lines 198-201):
url = url.replace ("http:", "https:"); return url[:-1] if url[-1] == "/" else url.
Indexing url[-1] on an empty string raises IndexError. -/
def clean_url (url : List Char) : Except PyErr (List Char) :=
  let u := replaceHttp url
  match u.getLast? with
  | none => Except.error PyErr.indexError
  | some c => Except.ok (if c = '/' then u.dropLast else u)

/-- Model of Python str.lstrip () with no arguments: drop leading whitespace. -/
def lstripWs (s : List Char) : List Char := s.dropWhile Char.isWhitespace

/-- Model of Python str.rstrip () with no arguments: drop trailing whitespace. -/
def rstripWs (s : List Char) : List Char := (s.reverse.dropWhile Char.isWhitespace).reverse

/-- Model of strip_whitespace (src/scraper/items.py lines 11-13):
text.rstrip ().lstrip (). -/
def strip_whitespace (text : List Char) : List Char := lstripWs (rstripWs text)

/-- Model of remove_thousand_separator (src/scraper/items.py lines 16-18):
int_as_str.replace (",", "").  Replacing a single-character pattern by the
empty string removes every comma. -/
def remove_thousand_separator (int_as_str : List Char) : List Char :=
  int_as_str.filter (fun c => decide (c ≠ ','))

/-- Decimal value of a digit list, most significant first. -/
def digitsToNat (ds : List Char) : Nat :=
  ds.foldl (fun a c => 10 * a + (c.toNat - 48)) 0

/-- Whether every character is an ASCII decimal digit. -/
def allDigits (ds : List Char) : Bool := ds.all Char.isDigit

/-- Model of the Python builtin int applied to a decimal string: surrounding
whitespace is ignored, an optional single sign is allowed, and the remainder
must be one or more digits; otherwise a ValueError is raised (modelled by
returning none).  Underscore digit grouping and non-ASCII digits are not
modelled; no input considered here uses them. -/
def pyIntParse (s : List Char) : Option Int :=
  match strip_whitespace s with
  | [] => none
  | c :: rest =>
      if c = '+' then
        if allDigits rest && decide (rest ≠ []) then some (Int.ofNat (digitsToNat rest)) else none
      else if c = '-' then
        if allDigits rest && decide (rest ≠ []) then some (-(Int.ofNat (digitsToNat rest))) else none
      else
        if allDigits (c :: rest) then some (Int.ofNat (digitsToNat (c :: rest))) else none

/-- Model of the numeric input processor shared by the stars and forks fields of
RepoInfoItem (src/scraper/items.py lines 62-69) and the commit_count field of
MainBranchItem (lines 34-37): lambda x: int (remove_thousand_separator (x[0])).
Indexing x[0] on an empty value list raises IndexError; int () raises ValueError
on a non-numeric remainder. -/
def numeric_field_input (x : List (List Char)) : Except PyErr Int :=
  match x with
  | [] => Except.error PyErr.indexError
  | s :: _ =>
      match pyIntParse (remove_thousand_separator s) with
      | some n => Except.ok n
      | none => Except.error PyErr.valueError

/-- The stars field coercion of RepoInfoItem (src/scraper/items.py lines 62-65). -/
def stars_input (x : List (List Char)) : Except PyErr Int := numeric_field_input x

/-- The commit_count field coercion of MainBranchItem (src/scraper/items.py lines 34-37). -/
def commit_count_input (x : List (List Char)) : Except PyErr Int := numeric_field_input x

/-- The release_count field coercion of RepoInfoItem (src/scraper/items.py lines
72-76): lambda x: int (remove_thousand_separator (x[0])) if x else [].  The
empty-list branch (modelled as ok none) makes the field absent when the page
had no release counter. -/
def release_count_input (x : List (List Char)) : Except PyErr (Option Int) :=
  match x with
  | [] => Except.ok none
  | s :: _ =>
      match pyIntParse (remove_thousand_separator s) with
      | some n => Except.ok (some n)
      | none => Except.error PyErr.valueError

/-- Model of the about field of RepoInfoItem (src/scraper/items.py lines 58-60):
input_processor Identity keeps the list of matched fragments, output_processor
lambda x: strip_whitespace (x[0]) strips the first fragment only; x[0] on an
empty fragment list raises IndexError. -/
def aboutField (fragments : List (List Char)) : Except PyErr (List Char) :=
  match fragments with
  | [] => Except.error PyErr.indexError
  | s :: _ => Except.ok (strip_whitespace s)

/-- Model of the changelog field of LatestReleaseItem (src/scraper/items.py lines
26-28): input_processor Join () collects the fragments into one string separated
by single spaces, output_processor lambda x: strip_whitespace (x[0]) strips it. -/
def changelogField (fragments : List (List Char)) : Except PyErr (List Char) :=
  Except.ok (strip_whitespace (List.intercalate [' '] fragments))

/-- The behaviour the specification describes for multi-segment text fields:
concatenate all matched fragments in document order, then trim. -/
def specConcatTrim (fragments : List (List Char)) : List Char :=
  strip_whitespace fragments.flatten

/-- Whether pat occurs as a contiguous substring of s. -/
def hasSub (pat : List Char) : List Char → Bool
  | [] => decide (pat = [])
  | c :: rest => pat.isPrefixOf (c :: rest) || hasSub pat rest

/-- Model of the releases-link extraction of ScraperSpider.parse_repo_info
(src/scraper/spiders/__init__.py lines 42-50): from the href values of all
anchors, keep those matching the regex .*releases.* (href values are single
line, so this is exactly the hrefs containing "releases") and index the first
with [0]; indexing an empty match list raises IndexError. -/
def parse_repo_info_releases (hrefs : List (List Char)) : Except PyErr (List Char) :=
  match hrefs.filter (fun h => hasSub (chs "releases") h) with
  | [] => Except.error PyErr.indexError
  | u :: _ => Except.ok u

/-- A stored repo row as used by the Stats view: the fields it reads.
main_branch_commit_count and stars are nullable columns, none models NULL. -/
structure RepoRec where
  repo : List Char
  main_branch_commit_count : Option Nat
  stars : Option Nat
deriving DecidableEq

/-- Model of the Python builtin max over a list (raises on empty, modelled as none). -/
def pyMax : List Nat → Option Nat
  | [] => none
  | x :: xs => some (xs.foldl Nat.max x)

/-- Model of the max_commit_count computation of Stats.post
(src/api/ghubscraper/views.py lines 161-166): max over
item["main_branch_commit_count"] if it is not None else 0. -/
def statsMaxCommit (repos : List RepoRec) : Option Nat :=
  pyMax (repos.map (fun r => r.main_branch_commit_count.getD 0))

/-- Model of top_repos_by_commit_count (views.py lines 168-175): the repos whose
main_branch_commit_count column equals the computed max; a NULL column never
equals a number in the ORM filter. -/
def statsTopRepos (repos : List RepoRec) (m : Nat) : List (List Char) :=
  (repos.filter (fun r => decide (r.main_branch_commit_count = some m))).map (fun r => r.repo)

/-- Model of avg_stars_count (views.py lines 177-179): the SQL Avg aggregate of
the stars column, which ignores NULL values and is NULL over an empty set. -/
def statsAvgStars (repos : List RepoRec) : Option ℚ :=
  let vs := repos.filterMap (fun r => r.stars)
  if vs.length = 0 then none
  else some ((vs.foldl (fun a n => a + (n : ℚ)) 0) / (vs.length : ℚ))

/-- The max-commit-count computation the specification describes: absent values
are excluded from the max rather than counted as zero. -/
def maxCommitExcludingAbsent (repos : List RepoRec) : Option Nat :=
  pyMax (repos.filterMap (fun r => r.main_branch_commit_count))

/-- A row of the Repo table as keyed by the AddRepo and CrawlPages views. -/
structure StoredRepo where
  account : List Char
  repo : List Char
deriving DecidableEq

/-- Number of stored rows with the given account and repo key. -/
def repoKeyCount (store : List StoredRepo) (acc repo : List Char) : Nat :=
  (store.filter (fun r => decide (r.account = acc ∧ r.repo = repo))).length

/-- Model of AddRepo.post (src/api/ghubscraper/views.py lines 31-52): the account
URL is normalized with clean_url (exceptions propagate); if the serializer
accepts the payload, every row with the same (account, repo) key is deleted and
one new row is inserted, else the store is untouched.  The serializer itself
lives in serializers.py, outside the embedded sources, so its verdict is the
boolean argument valid. -/
def addRepoPost (valid : Bool) (store : List StoredRepo) (acc repo : List Char) :
    Except PyErr (List StoredRepo) :=
  match clean_url acc with
  | Except.error e => Except.error e
  | Except.ok acc2 =>
      if valid then
        Except.ok
          ((store.filter (fun r => decide (¬ (r.account = acc2 ∧ r.repo = repo)))) ++
            [⟨acc2, repo⟩])
      else Except.ok store

/-- clean_url applied to each submitted URL in order, propagating the first
exception, as the validated_urls loop of CrawlPages.post does. -/
def cleanAll : List (List Char) → Except PyErr (List (List Char))
  | [] => Except.ok []
  | u :: us =>
      match clean_url u with
      | Except.error e => Except.error e
      | Except.ok c =>
          match cleanAll us with
          | Except.error e => Except.error e
          | Except.ok cs => Except.ok (c :: cs)

/-- Outcome of a CrawlPages.post request: whether the HTTP response reported
success, and the record store the view leaves behind. -/
structure CrawlOutcome where
  respOk : Bool
  store : List StoredRepo
deriving DecidableEq

/-- Model of CrawlPages.post (src/api/ghubscraper/views.py lines 69-104): an
empty URL list or an invalid payload returns an error response with the store
untouched; otherwise each URL is normalized and all rows of the normalized
accounts are deleted, then the dispatcher is contacted; a non-200 dispatcher
reply (dispatchOk = false) yields an error response, with the deletions kept.
The serializer verdict is the boolean argument valid, and the dispatcher reply
the boolean dispatchOk. -/
def crawlPagesPost (valid dispatchOk : Bool) (store : List StoredRepo)
    (urls : List (List Char)) : Except PyErr CrawlOutcome :=
  if urls = [] then Except.ok ⟨false, store⟩
  else if valid then
    match cleanAll urls with
    | Except.error e => Except.error e
    | Except.ok cleaned =>
        Except.ok ⟨dispatchOk, store.filter (fun r => decide (¬ r.account ∈ cleaned))⟩
  else Except.ok ⟨false, store⟩

/-! ### Lemmas about the scheme-rewriting replace -/

/-- Unfolding of replaceHttp on a cons cell, phrased through a prefix test. -/
theorem replaceHttp_cons (c : Char) (rest : List Char) :
    replaceHttp (c :: rest) =
      if (c :: rest).take 5 = ['h', 't', 't', 'p', ':']
      then 'h' :: 't' :: 't' :: 'p' :: 's' :: ':' :: replaceHttp (rest.drop 4)
      else c :: replaceHttp rest := by
  rw [replaceHttp.eq_def]
  split
  · rename_i x r heq
    rw [List.cons.injEq] at heq
    obtain ⟨rfl, rfl⟩ := heq
    simp [List.take, List.drop]
  · rename_i x c2 r2 hno heq
    rw [List.cons.injEq] at heq
    obtain ⟨rfl, rfl⟩ := heq
    rw [if_neg]
    intro hc
    have hc' : c = 'h' ∧ rest.take 4 = ['t', 't', 'p', ':'] := by
      simpa [List.take_succ_cons, List.cons.injEq] using hc
    obtain ⟨rfl, h4⟩ := hc'
    have hrest : rest = 't' :: 't' :: 'p' :: ':' :: rest.drop 4 := by
      conv_lhs => rw [← List.take_append_drop 4 rest]
      rw [h4]
      rfl
    exact hno (rest.drop 4) rfl hrest
  · rename_i x heq
    exact absurd heq (by simp)

/-- If the rewritten list starts with a character other than h, that character
was the head of the input and the tail is the rewrite of the input's tail. -/
theorem replaceHttp_head_ne (s : List Char) (x : Char) (X : List Char)
    (hx : x ≠ 'h') (h : replaceHttp s = x :: X) :
    ∃ r, s = x :: r ∧ X = replaceHttp r := by
  match s with
  | [] => exact absurd h (by simp [replaceHttp])
  | c :: rest =>
    rw [replaceHttp_cons] at h
    by_cases hc : (c :: rest).take 5 = ['h', 't', 't', 'p', ':']
    · rw [if_pos hc] at h
      rw [List.cons.injEq] at h
      exact absurd h.1.symm hx
    · rw [if_neg hc] at h
      rw [List.cons.injEq] at h
      exact ⟨rest, by rw [h.1], h.2.symm⟩

/-- A pattern free of the character h survives backwards through replaceHttp:
if it is a prefix of the output, it was a prefix of the input. -/
theorem replaceHttp_take_transfer (p : List Char) :
    ∀ s : List Char, (∀ x ∈ p, x ≠ 'h') →
      (replaceHttp s).take p.length = p → s.take p.length = p := by
  induction p with
  | nil => intro s _ _; simp
  | cons a q ih =>
    intro s hp h
    simp only [List.length_cons] at h ⊢
    cases hR : replaceHttp s with
    | nil => rw [hR] at h; simp at h
    | cons b L =>
      rw [hR, List.take_succ_cons, List.cons.injEq] at h
      obtain ⟨rfl, hL⟩ := h
      obtain ⟨r, rfl, hX⟩ :=
        replaceHttp_head_ne s b L (hp b (List.mem_cons_self b q)) hR
      rw [List.take_succ_cons, List.cons.injEq]
      refine ⟨rfl, ih r (fun x hx => hp x (List.mem_cons_of_mem b hx)) ?_⟩
      rw [← hX]
      exact hL

/-- The output of replaceHttp never contains the pattern again. -/
theorem hasHttp_replaceHttp (s : List Char) : hasHttp (replaceHttp s) = false := by
  match s with
  | [] => rfl
  | c :: rest =>
    rw [replaceHttp_cons]
    by_cases h : (c :: rest).take 5 = ['h', 't', 't', 'p', ':']
    · rw [if_pos h]
      have ih := hasHttp_replaceHttp (rest.drop 4)
      simp only [hasHttp, ih, Bool.or_false]
      simp [List.take]
    · rw [if_neg h]
      have ih := hasHttp_replaceHttp rest
      simp only [hasHttp, ih, Bool.or_false, decide_eq_false_iff_not]
      intro hc
      rw [List.take_succ_cons, List.cons.injEq] at hc
      obtain ⟨rfl, h4⟩ := hc
      have ht := replaceHttp_take_transfer ['t', 't', 'p', ':'] rest (by decide) (by simpa using h4)
      have ht' : List.take 4 rest = ['t', 't', 'p', ':'] := by simpa using ht
      exact h (by rw [List.take_succ_cons, ht'])
termination_by s.length
decreasing_by
  · simp [List.length_drop]; omega
  · simp

/-- On a list without the pattern, replaceHttp is the identity. -/
theorem replaceHttp_of_not_hasHttp (s : List Char) (h : hasHttp s = false) :
    replaceHttp s = s := by
  induction s with
  | nil => rfl
  | cons c rest ih =>
    simp only [hasHttp, Bool.or_eq_false_iff, decide_eq_false_iff_not] at h
    rw [replaceHttp_cons, if_neg h.1, ih h.2]

/-- replaceHttp maps nonempty lists to nonempty lists. -/
theorem replaceHttp_ne_nil (s : List Char) (h : s ≠ []) : replaceHttp s ≠ [] := by
  cases s with
  | nil => exact absurd rfl h
  | cons c rest =>
    rw [replaceHttp_cons]
    split <;> simp

/-- A prefix of the front of a list is a prefix of the list itself. -/
theorem take_of_take_dropLast (L p : List Char) (h : L.dropLast.take p.length = p) :
    L.take p.length = p := by
  rw [List.dropLast_eq_take, List.take_take] at h
  have hlen := congrArg List.length h
  simp only [List.length_take] at hlen
  have hmin : min p.length (L.length - 1) = p.length := by omega
  rw [hmin] at h
  exact h

/-- Dropping the last element cannot create an occurrence of the pattern. -/
theorem hasHttp_dropLast (s : List Char) (h : hasHttp s = false) :
    hasHttp s.dropLast = false := by
  induction s with
  | nil => simpa using h
  | cons c rest ih =>
    cases rest with
    | nil => rfl
    | cons d r2 =>
      have h' : decide ((c :: d :: r2).take 5 = ['h', 't', 't', 'p', ':']) = false ∧
          hasHttp (d :: r2) = false := by
        rwa [show hasHttp (c :: d :: r2) =
            (decide ((c :: d :: r2).take 5 = ['h', 't', 't', 'p', ':']) || hasHttp (d :: r2))
          from rfl, Bool.or_eq_false_iff] at h
      rw [List.dropLast_cons₂]
      show (decide ((c :: (d :: r2).dropLast).take 5 = ['h', 't', 't', 'p', ':']) ||
          hasHttp ((d :: r2).dropLast)) = false
      rw [Bool.or_eq_false_iff]
      refine ⟨?_, ih h'.2⟩
      rw [decide_eq_false_iff_not]
      intro hc
      rw [← List.dropLast_cons₂] at hc
      have := take_of_take_dropLast (c :: d :: r2) ['h', 't', 't', 'p', ':'] (by simpa using hc)
      have h1 := decide_eq_false_iff_not.mp h'.1
      exact h1 (by simpa using this)

/-- A value successfully returned by clean_url never contains the pattern. -/
theorem hasHttp_of_clean_url_ok (u r : List Char) (h : clean_url u = Except.ok r) :
    hasHttp r = false := by
  have h0 : hasHttp (replaceHttp u) = false := hasHttp_replaceHttp u
  simp only [clean_url] at h
  cases hG : (replaceHttp u).getLast? with
  | none => rw [hG] at h; exact absurd h (by simp)
  | some c =>
    rw [hG] at h
    simp only [Except.ok.injEq] at h
    by_cases hc : c = '/'
    · rw [if_pos hc] at h
      rw [← h]
      exact hasHttp_dropLast _ h0
    · rw [if_neg hc] at h
      rw [← h]
      exact h0

/-- clean_url succeeds on every nonempty input. -/
theorem clean_url_ok_of_ne_nil (u : List Char) (hu : u ≠ []) :
    ∃ r, clean_url u = Except.ok r := by
  have hne := replaceHttp_ne_nil u hu
  simp only [clean_url]
  cases hR : replaceHttp u with
  | nil => exact absurd hR hne
  | cons c cs =>
    cases hG : (c :: cs).getLast? with
    | none => simp at hG
    | some d => exact ⟨_, rfl⟩

/-- A dropWhile that removes nothing because no element satisfies the test. -/
theorem dropWhile_eq_self_of_forall (p : Char → Bool) (l : List Char)
    (h : ∀ c ∈ l, p c = false) : l.dropWhile p = l := by
  cases l with
  | nil => rfl
  | cons a l =>
    rw [List.dropWhile_cons, if_neg]
    rw [h a (List.mem_cons_self a l)]
    simp

/-- An ASCII digit is not whitespace. -/
theorem digit_not_ws (c : Char) (h : c.isDigit = true) : c.isWhitespace = false := by
  by_contra hw
  rw [Bool.not_eq_false] at hw
  have hw' : ((c = ' ' ∨ c = '\t') ∨ c = '\r') ∨ c = '\n' := by
    simpa [Char.isWhitespace] using hw
  rcases hw' with ((rfl | rfl) | rfl) | rfl <;> exact absurd h (by decide)

/-- strip_whitespace leaves an all-digit list unchanged. -/
theorem strip_whitespace_digits (ds : List Char) (hd : ∀ c ∈ ds, c.isDigit = true) :
    strip_whitespace ds = ds := by
  unfold strip_whitespace rstripWs lstripWs
  rw [dropWhile_eq_self_of_forall _ _
    (fun c hc => digit_not_ws c (hd c (List.mem_reverse.mp hc)))]
  rw [List.reverse_reverse]
  exact dropWhile_eq_self_of_forall _ _ (fun c hc => digit_not_ws c (hd c hc))

/-- Python int () on a nonempty all-digit string returns its decimal value. -/
theorem pyIntParse_digits (ds : List Char) (hne : ds ≠ []) (hd : ∀ c ∈ ds, c.isDigit = true) :
    pyIntParse ds = some (Int.ofNat (digitsToNat ds)) := by
  unfold pyIntParse
  rw [strip_whitespace_digits ds hd]
  cases ds with
  | nil => exact absurd rfl hne
  | cons c rest =>
    have hc := hd c (List.mem_cons_self c rest)
    have hplus : c ≠ '+' := fun he => by rw [he] at hc; exact absurd hc (by decide)
    have hminus : c ≠ '-' := fun he => by rw [he] at hc; exact absurd hc (by decide)
    have hall : allDigits (c :: rest) = true := by
      rw [allDigits, List.all_eq_true]
      exact hd
    simp only [if_neg hplus, if_neg hminus, if_pos hall]

/-! ### Claim theorems -/

/-- C1 counterexample: clean_url is not idempotent on every string.  On "x//"
one application strips a single trailing slash, yielding "x/", and a second
application strips another, yielding "x". -/
theorem c1_clean_url_not_idempotent :
    Except.bind (clean_url (chs "x//")) clean_url = Except.ok (chs "x") ∧
    clean_url (chs "x//") = Except.ok (chs "x/") ∧
    chs "x" ≠ chs "x/" :=
  ⟨rfl, rfl, by decide⟩

/-- C1 amended: clean_url is idempotent on every input whose first normalization
succeeds with a nonempty result that does not end in a slash, the case for every
well-formed account URL; it fails to be idempotent exactly when the first result
still ends in '/' (input ended in two or more slashes) or is empty (input "/"). -/
theorem c1_clean_url_idempotent_amended (u r : List Char)
    (h : clean_url u = Except.ok r) (hne : r ≠ []) (hlast : r.getLast? ≠ some '/') :
    clean_url r = Except.ok r := by
  have hr : hasHttp r = false := hasHttp_of_clean_url_ok u r h
  have hid : replaceHttp r = r := replaceHttp_of_not_hasHttp r hr
  simp only [clean_url, hid]
  cases hG : r.getLast? with
  | none => exact absurd (by simpa using hG) hne
  | some c =>
    have hc : c ≠ '/' := fun hceq => hlast (by rw [hG, hceq])
    show Except.ok (if c = '/' then r.dropLast else r) = Except.ok r
    rw [if_neg hc]

theorem c1_clean_url_idempotent_amended_witness :
    clean_url (chs "https://github.com/a") = Except.ok (chs "https://github.com/a") :=
  c1_clean_url_idempotent_amended (chs "https://github.com/a/") (chs "https://github.com/a")
    rfl (by decide) (by decide)

/-- C7: clean_url rewrites the http: scheme to https: and strips exactly one
trailing slash if present, so both spellings of the same account URL normalize
to the same value; moreover no successful result retains an "http:" occurrence. -/
theorem c7_clean_url_scheme_and_slash :
    clean_url (chs "http://x/y/") = Except.ok (chs "https://x/y") ∧
    clean_url (chs "https://x/y") = Except.ok (chs "https://x/y") ∧
    clean_url (chs "https://x/y//") = Except.ok (chs "https://x/y/") ∧
    (∀ u r, clean_url u = Except.ok r → hasHttp r = false) :=
  ⟨rfl, rfl, rfl, hasHttp_of_clean_url_ok⟩

theorem c7_clean_url_scheme_and_slash_witness :
    hasHttp (chs "https://a") = false :=
  c7_clean_url_scheme_and_slash.2.2.2 (chs "http://a") (chs "https://a") rfl

/-- C8 counterexample: an input that is whitespace only, hence empty after
trimming, is returned unchanged by clean_url instead of failing with
InvalidUrlError, and the empty string fails with IndexError, not
InvalidUrlError. -/
theorem c8_empty_after_trim_counterexample :
    clean_url (chs " ") = Except.ok (chs " ") ∧
    clean_url (chs "") = Except.error PyErr.indexError :=
  ⟨rfl, rfl⟩

/-- C8 amended: clean_url performs no trimming and never raises InvalidUrlError:
the empty string raises an unhandled IndexError, and every nonempty input,
whitespace-only ones included, succeeds. -/
theorem c8_empty_input_amended :
    clean_url (chs "") = Except.error PyErr.indexError ∧
    clean_url (chs " ") = Except.ok (chs " ") ∧
    (∀ u : List Char, u ≠ [] → ∃ r, clean_url u = Except.ok r) :=
  ⟨rfl, rfl, clean_url_ok_of_ne_nil⟩

theorem c8_empty_input_amended_witness :
    ∃ r, clean_url (chs " x") = Except.ok r :=
  c8_empty_input_amended.2.2 (chs " x") (by decide)

/-- C2 counterexample: a non-numeric raw string makes the stars coercion raise a
ValueError (lambda x: int (remove_thousand_separator (x[0])) has no handler), it
does not yield an absent field. -/
theorem c2_nonnumeric_raises :
    stars_input [chs "abc"] = Except.error PyErr.valueError :=
  rfl

/-- C2 amended: a raw string that is not a valid integer after separator
stripping makes the numeric coercion raise ValueError, crashing the field
extraction; only a selector with zero matches yields an absent field, which the
release_count processor encodes by returning an empty list. -/
theorem c2_nonnumeric_raises_amended :
    (∀ s, pyIntParse (remove_thousand_separator s) = none →
      stars_input [s] = Except.error PyErr.valueError) ∧
    release_count_input [] = Except.ok none := by
  refine ⟨?_, rfl⟩
  intro s h
  simp only [stars_input, numeric_field_input, h]

theorem c2_nonnumeric_raises_amended_witness :
    stars_input [chs "12a"] = Except.error PyErr.valueError :=
  c2_nonnumeric_raises_amended.1 (chs "12a") rfl

/-- An ASCII digit is not a comma. -/
theorem digit_ne_comma (c : Char) (h : c.isDigit = true) : c ≠ ',' :=
  fun he => by rw [he] at h; exact absurd h (by decide)

/-- C3: on any raw string of digits and thousands-separator commas with at least
one digit, the numeric coercion strips the commas and parses the remaining
digits as a decimal integer; in particular "1,234" gives 1234 and "45,000"
gives 45000. -/
theorem c3_separator_stripping :
    (∀ s : List Char, (∀ c ∈ s, c.isDigit = true ∨ c = ',') → (∃ c ∈ s, c.isDigit = true) →
      stars_input [s] = Except.ok (Int.ofNat (digitsToNat (remove_thousand_separator s)))) ∧
    stars_input [chs "1,234"] = Except.ok 1234 ∧
    commit_count_input [chs "45,000"] = Except.ok 45000 := by
  refine ⟨?_, rfl, rfl⟩
  intro s h1 h2
  have htd : ∀ c ∈ remove_thousand_separator s, c.isDigit = true := by
    intro c hc
    rw [remove_thousand_separator, List.mem_filter] at hc
    rcases h1 c hc.1 with hd | hcomma
    · exact hd
    · exact absurd hcomma (by simpa using hc.2)
  have htne : remove_thousand_separator s ≠ [] := by
    obtain ⟨c, hcs, hcd⟩ := h2
    intro hnil
    have hcm : c ∈ remove_thousand_separator s := by
      rw [remove_thousand_separator, List.mem_filter]
      exact ⟨hcs, by simpa using digit_ne_comma c hcd⟩
    rw [hnil] at hcm
    exact absurd hcm (List.not_mem_nil c)
  have hp := pyIntParse_digits (remove_thousand_separator s) htne htd
  simp only [stars_input, numeric_field_input, hp]

theorem c3_separator_stripping_witness :
    (∀ c ∈ chs "1,234", c.isDigit = true ∨ c = ',') ∧
    stars_input [chs "1,234"] =
      Except.ok (Int.ofNat (digitsToNat (remove_thousand_separator (chs "1,234")))) :=
  ⟨by decide, c3_separator_stripping.1 (chs "1,234") (by decide) (by decide)⟩

/-- C4: on a repo detail page whose anchors contain no href matching the
releases regex, parse_repo_info raises an unhandled IndexError from indexing
[0] into the empty match list, instead of finalizing with absent release
fields as the specification describes. -/
theorem c4_no_releases_link_raises :
    parse_repo_info_releases [chs "/scrapy/scrapy", chs "/scrapy/scrapy/issues"] =
      Except.error PyErr.indexError ∧
    parse_repo_info_releases [] = Except.error PyErr.indexError :=
  ⟨rfl, rfl⟩

/-- C5: the Stats aggregation substitutes 0 for an absent commit count instead
of excluding the repository: on an account with a single repo whose
main_branch_commit_count is NULL and whose stars are 10, the view reports
max commit count 0 (the exclusion semantics of the specification would report
none), an empty top-repo list, and an average-stars value of 10 that includes
the commit-count-absent repository. -/
theorem c5_absent_commit_count_counted_as_zero :
    statsMaxCommit [⟨chs "r1", none, some 10⟩] = some 0 ∧
    maxCommitExcludingAbsent [⟨chs "r1", none, some 10⟩] = none ∧
    statsTopRepos [⟨chs "r1", none, some 10⟩] 0 = [] ∧
    statsAvgStars [⟨chs "r1", none, some 10⟩] = some 10 := by
  refine ⟨rfl, rfl, rfl, ?_⟩
  show (if (1 : Nat) = 0 then (none : Option ℚ) else some ((0 + (10 : ℚ)) / (1 : ℚ))) = some 10
  norm_num

/-- C9 counterexample: the about field keeps only the first matched fragment;
with fragments "x" and "y" the code produces "x" while the concatenate-then-trim
behaviour of the specification produces "xy". -/
theorem c9_about_drops_later_fragments :
    aboutField [chs "x", chs "y"] = Except.ok (chs "x") ∧
    specConcatTrim [chs "x", chs "y"] = chs "xy" ∧
    chs "x" ≠ chs "xy" :=
  ⟨rfl, rfl, by decide⟩

/-- C9 amended: the changelog field joins all matched fragments in document
order, separated by single spaces, and trims the result; the about field keeps
only the first matched fragment, trimmed — every later fragment is dropped. -/
theorem c9_text_fields_amended :
    (∀ s rest, aboutField (s :: rest) = aboutField [s]) ∧
    (∀ xs, changelogField xs = Except.ok (strip_whitespace (List.intercalate [' '] xs))) :=
  ⟨fun _ _ => rfl, fun _ => rfl⟩

/-- C6: delivering the same finalized record twice through AddRepo.post leaves
exactly one stored row for its (account, repo) key, and the second delivery
leaves the store exactly as the first did: delete-then-insert is idempotent. -/
theorem c6_addrepo_delivery_idempotent (store : List StoredRepo)
    (acc acc2 repo : List Char) (s1 s2 : List StoredRepo)
    (hacc : clean_url acc = Except.ok acc2)
    (h1 : addRepoPost true store acc repo = Except.ok s1)
    (h2 : addRepoPost true s1 acc repo = Except.ok s2) :
    repoKeyCount s2 acc2 repo = 1 ∧ s2 = s1 := by
  unfold addRepoPost at h1 h2
  rw [hacc] at h1 h2
  simp only [if_true, Except.ok.injEq] at h1 h2
  have hfilter1 :
      s1.filter (fun r => decide (¬ (r.account = acc2 ∧ r.repo = repo))) =
        store.filter (fun r => decide (¬ (r.account = acc2 ∧ r.repo = repo))) := by
    rw [← h1, List.filter_append, List.filter_filter]
    simp
  have hs2 : s2 = s1 := by
    rw [← h2, hfilter1, h1]
  refine ⟨?_, hs2⟩
  rw [hs2, ← h1, repoKeyCount, List.filter_append, List.filter_filter]
  simp

theorem c6_addrepo_delivery_idempotent_witness :
    repoKeyCount [⟨chs "https://github.com/a", chs "r"⟩]
      (chs "https://github.com/a") (chs "r") = 1 ∧
    ([⟨chs "https://github.com/a", chs "r"⟩] : List StoredRepo) =
      [⟨chs "https://github.com/a", chs "r"⟩] :=
  c6_addrepo_delivery_idempotent
    [⟨chs "https://github.com/a", chs "r"⟩, ⟨chs "https://github.com/a", chs "r"⟩]
    (chs "http://github.com/a/") (chs "https://github.com/a") (chs "r")
    [⟨chs "https://github.com/a", chs "r"⟩] [⟨chs "https://github.com/a", chs "r"⟩]
    rfl rfl rfl

/-- C10: when the submitted URL list is nonempty and every URL normalizes, the
crawl view first deletes every stored row whose account is among the normalized
URLs; if the dispatcher then reports failure the view answers with an error
response but the deletions stand — every row of a submitted account is gone
from the resulting store even though no crawl was scheduled. -/
theorem c10_crawl_deletes_before_dispatch (store : List StoredRepo)
    (urls cleanedUrls : List (List Char))
    (hne : urls ≠ []) (hclean : cleanAll urls = Except.ok cleanedUrls) :
    crawlPagesPost true false store urls =
      Except.ok ⟨false, store.filter (fun r => decide (¬ r.account ∈ cleanedUrls))⟩ ∧
    ∀ r ∈ store, r.account ∈ cleanedUrls →
      ¬ r ∈ store.filter (fun r => decide (¬ r.account ∈ cleanedUrls)) := by
  constructor
  · simp only [crawlPagesPost, if_neg hne, if_true, hclean]
  · intro r _ hacc hmem
    rw [List.mem_filter] at hmem
    exact absurd hacc (by simpa using hmem.2)

theorem c10_crawl_deletes_before_dispatch_witness :
    crawlPagesPost true false [⟨chs "https://github.com/a", chs "r1"⟩]
        [chs "http://github.com/a/"] =
      Except.ok ⟨false, ([⟨chs "https://github.com/a", chs "r1"⟩] : List StoredRepo).filter
        (fun r => decide (¬ r.account ∈ [chs "https://github.com/a"]))⟩ :=
  (c10_crawl_deletes_before_dispatch [⟨chs "https://github.com/a", chs "r1"⟩]
    [chs "http://github.com/a/"] [chs "https://github.com/a"] (by decide) rfl).1

theorem c9_text_fields_amended_witness :
    aboutField [chs "x", chs "y"] = aboutField [chs "x"] :=
  c9_text_fields_amended.1 (chs "x") [chs "y"]
